import Mathlib

set_option linter.unusedVariables false

/-!
# Verification of the hateb_local_planner interface and configuration layer

Shallow embedding of the repository's two headers,
`include/teb_local_planner/teb_config.h` and
`include/teb_local_planner/planner_interface.h`, together with models of
the planner components that the headers declare but whose implementation
is not part of this source tree (those models are marked
`Modelled from the spec:` in their doc comments).

C++ `double` fields are embedded as `ℚ`, C++ `int` as `ℤ`.
-/

namespace TebSpec

/-- A 2D pose (x, y, heading), cf. `teb_local_planner/pose_se2.h` which the
interface header includes. -/
structure PoseSE2 where
  x : ℚ
  y : ℚ
  theta : ℚ
deriving DecidableEq, Repr

/-- A stamped pose as used for initial plans
(`std::vector<geometry_msgs::PoseStamped>` in `planner_interface.h`). -/
structure PoseStamped where
  stamp : ℚ
  x : ℚ
  y : ℚ
  theta : ℚ
deriving DecidableEq, Repr

/-- A point of a full trajectory as extracted by
`PlannerInterface::getFullTrajectory` (`TrajectoryPointMsg`). -/
structure TrajectoryPointMsg where
  pose : PoseSE2
  velocity_v : ℚ
  velocity_omega : ℚ
  time_from_start : ℚ
deriving DecidableEq, Repr

/-- `TebConfig::Trajectory` (teb_config.h, struct `Trajectory`):
trajectory related parameters. `teb_autosize` is declared `double` in the
header (the constructor assigns `true`, i.e. 1.0). -/
structure TrajectoryConfig where
  teb_autosize : ℚ
  dt_ref : ℚ
  dt_hysteresis : ℚ
  min_samples : ℤ
  human_min_samples : ℤ
  global_plan_overwrite_orientation : Bool
  global_plan_viapoint_sep : ℚ
  via_points_ordered : Bool
  max_global_plan_lookahead_dist : ℚ
  force_reinit_new_goal_dist : ℚ
  feasibility_check_no_poses : ℤ
  publish_feedback : Bool
  shrink_horizon_backup : Bool
  horizon_reduction_amount : ℚ
  teb_init_skip_dist : ℚ
deriving DecidableEq, Repr

/-- `TebConfig::HomotopyClasses` (teb_config.h, struct `HomotopyClasses`):
homotopy class planning related parameters. -/
structure HomotopyClasses where
  enable_homotopy_class_planning : Bool
  enable_multithreading : Bool
  simple_exploration : Bool
  max_number_classes : ℤ
  selection_cost_hysteresis : ℚ
  selection_obst_cost_scale : ℚ
  selection_viapoint_cost_scale : ℚ
  selection_alternative_time_cost : Bool
  roadmap_graph_no_samples : ℤ
  roadmap_graph_area_width : ℚ
  h_signature_prescaler : ℚ
  h_signature_threshold : ℚ
  obstacle_keypoint_offset : ℚ
  obstacle_heading_threshold : ℚ
  viapoints_all_candidates : Bool
  visualize_hc_graph : Bool
deriving DecidableEq, Repr

/-- `TebConfig` (teb_config.h): the parameter groups referenced by the
verified properties (`planning_mode`, the `Trajectory` group and the
`HomotopyClasses` group; the remaining groups — robot, human, goal
tolerance, obstacles, optimization, visualization, approach — exist in the
header but are not referenced by any theorem below). -/
structure TebConfig where
  odom_topic : String
  map_frame : String
  planning_mode : ℤ
  trajectory : TrajectoryConfig
  hcp : HomotopyClasses
deriving DecidableEq, Repr

/-- The default values assigned by the `TebConfig()` constructor
(teb_config.h, lines 398–560). -/
def defaultTebConfig : TebConfig :=
  { odom_topic := "odom"
    map_frame := "odom"
    planning_mode := 1  -- "Human-Aware planning by default"
    trajectory :=
      { teb_autosize := 1  -- `trajectory.teb_autosize = true;`
        dt_ref := 3/10
        dt_hysteresis := 1/10
        min_samples := 3
        human_min_samples := 3
        global_plan_overwrite_orientation := true
        global_plan_viapoint_sep := -1
        via_points_ordered := false
        max_global_plan_lookahead_dist := 1
        force_reinit_new_goal_dist := 1
        feasibility_check_no_poses := 5
        publish_feedback := false
        shrink_horizon_backup := true
        horizon_reduction_amount := 1/2
        teb_init_skip_dist := 2/5 }
    hcp :=
      { enable_homotopy_class_planning := true
        enable_multithreading := true
        simple_exploration := false
        max_number_classes := 5
        selection_cost_hysteresis := 1
        selection_obst_cost_scale := 100
        selection_viapoint_cost_scale := 1
        selection_alternative_time_cost := false
        roadmap_graph_no_samples := 15
        roadmap_graph_area_width := 6
        h_signature_prescaler := 1
        h_signature_threshold := 1/10
        obstacle_keypoint_offset := 1/10
        obstacle_heading_threshold := 9/20
        viapoints_all_candidates := true
        visualize_hc_graph := false } }

/-- `PlannerInterface::isHorizonReductionAppropriate`
(planner_interface.h, lines 216–219): the default implementation ignores
the initial plan and returns `false`. -/
def isHorizonReductionAppropriate (initial_plan : List PoseStamped) : Bool :=
  false

/-- `PlannerInterface::computeCurrentCost` (planner_interface.h,
lines 231–233): the default implementation has an empty body, so the
planner state and the caller's cost vector are returned unchanged.
Modelled with explicit state passing (`σ` is the state of the concrete
planner object). -/
def computeCurrentCost (σ : Type) (state : σ) (cost : List ℚ)
    (obst_cost_scale : ℚ) (alternative_time_cost : Bool) : σ × List ℚ :=
  (state, cost)

/-- `PlannerInterface::getFullTrajectory` (planner_interface.h, line 235):
the default implementation has an empty body, so the planner state and the
caller's trajectory vector are returned unchanged. -/
def getFullTrajectory (σ : Type) (state : σ)
    (trajectory : List TrajectoryPointMsg) : σ × List TrajectoryPointMsg :=
  (state, trajectory)

/-- Modelled from the spec: the human-interaction cost edges (§4.2
*Human-interaction*) are built only when `planning_mode` enables
human-awareness, i.e. mode 1 ("Human-Aware planning"); the edge-building
code itself is not part of this source tree. -/
def humanInteractionEdgesActive (cfg : TebConfig) : Bool :=
  cfg.planning_mode == 1

/-- Modelled from the spec: the homotopy-class selection rule of the
`HomotopyClassPlanner` (spec §4.5 step 5; the rule `new_cost <
old_cost*factor` is also documented on
`TebConfig::HomotopyClasses::selection_cost_hysteresis`, teb_config.h
lines 303–307). Returns `true` iff the newly explored candidate replaces
the previously selected one. -/
def switchCandidate (previousCost hysteresis newCost : ℚ) : Bool :=
  decide (newCost < previousCost * hysteresis)

/-! ## Trajectory feasibility (`PlannerInterface::isTrajectoryFeasible`)

The method is pure virtual in `planner_interface.h` (lines 192–197); its
semantics is fixed by the doc comment there: it returns `true` iff the
robot footprint along the checked part of the trajectory intersects an
obstacle, the argument `look_ahead_idx` gives the number of poses to
verify and defaults to `-1`, in which case the complete trajectory is
checked. -/

/-- The default value of the `look_ahead_idx` argument of
`PlannerInterface::isTrajectoryFeasible` (planner_interface.h, line 197). -/
def look_ahead_idx_default : ℤ := -1

/-- Modelled from the spec: the poses of the selected trajectory that
`isTrajectoryFeasible` verifies — the first `look_ahead_idx` poses when a
non-negative count is given, the complete trajectory when `-1`. -/
def checkedPoses (look_ahead_idx : ℤ) (poses : List PoseSE2) : List PoseSE2 :=
  if look_ahead_idx < 0 then poses else poses.take look_ahead_idx.toNat

/-- Modelled from the spec: the robot footprint (a disc of the given
radius) placed at pose `p` intersects the point obstacle `obs`. -/
def footprintHitsObstacle (radius : ℚ) (p : PoseSE2) (obs : ℚ × ℚ) : Bool :=
  decide ((p.x - obs.1) * (p.x - obs.1) + (p.y - obs.2) * (p.y - obs.2)
    ≤ radius * radius)

/-- Modelled from the spec: `isTrajectoryFeasible` for a disc footprint
against point obstacles — `true` iff some checked pose's footprint
intersects some obstacle (a return of `true` reports a collision, per the
doc comment in planner_interface.h, lines 188–190). -/
def isTrajectoryFeasible (radius : ℚ) (obstacles : List (ℚ × ℚ))
    (look_ahead_idx : ℤ) (poses : List PoseSE2) : Bool :=
  (checkedPoses look_ahead_idx poses).any fun p =>
    obstacles.any fun o => footprintHitsObstacle radius p o

/-- The straight-line trajectory along the x-axis used by the feasibility
test scenarios. -/
def straightPoses : List PoseSE2 :=
  [⟨0, 0, 0⟩, ⟨1, 0, 0⟩, ⟨2, 0, 0⟩]

/-- `straightPoses` offset laterally by 1.0 m. -/
def offsetPoses : List PoseSE2 :=
  [⟨0, 1, 0⟩, ⟨1, 1, 0⟩, ⟨2, 1, 0⟩]

/-! ## H-signatures and candidate deduplication -/

/-- The complex-valued H-signature of a candidate (spec §3, glossary). -/
structure HSignature where
  re : ℚ
  im : ℚ
deriving DecidableEq, Repr

/-- A homotopy-class candidate tagged with its H-signature and scalar cost
(spec §3, *Candidate*). -/
structure Candidate where
  sig : HSignature
  cost : ℚ
deriving DecidableEq, Repr

/-- Modelled from the spec: two H-signatures are assumed equal iff both
the difference of the real parts and of the imaginary parts are below the
threshold (spec §3 *HSignature equivalence*; also the doc comment on
`TebConfig::HomotopyClasses::h_signature_threshold`, teb_config.h
lines 329–332). -/
def sameHClass (threshold : ℚ) (a b : HSignature) : Bool :=
  decide (|a.re - b.re| < threshold) && decide (|a.im - b.im| < threshold)

/-- Modelled from the spec: insert a candidate into the retained list —
if it falls into the class of an already retained candidate, keep only
the lower-cost of the two, otherwise append it. -/
def insertCandidate (threshold : ℚ) (c : Candidate) :
    List Candidate → List Candidate
  | [] => [c]
  | d :: rest =>
    if sameHClass threshold c.sig d.sig then
      (if c.cost < d.cost then c else d) :: rest
    else
      d :: insertCandidate threshold c rest

/-- Modelled from the spec: duplicate pruning over a list of explored
candidates (spec §4.5 step 3). -/
def pruneCandidates (threshold : ℚ) (cs : List Candidate) : List Candidate :=
  cs.foldl (fun acc c => insertCandidate threshold c acc) []

/-! ## Planner call sequence (`plan` / `getVelocityCommand` contract) -/

/-- An event in the life of a planner object: a `plan` call that either
succeeds, producing an optimized trajectory whose first segment yields
the command `cmd`, or fails; or a `clearPlanner` call. -/
inductive PlannerEvent where
  | planCall (success : Bool) (cmd : ℚ × ℚ)
  | clearCall
deriving DecidableEq, Repr

/-- Modelled from the spec: the command-relevant planner state is the
optimized trajectory's first-segment command, present only once a `plan`
call has succeeded (spec §6, §7: a failed `plan` leaves no valid command,
`clearPlanner` resets all internal state). -/
def stepPlanner (st : Option (ℚ × ℚ)) : PlannerEvent → Option (ℚ × ℚ)
  | .planCall true cmd => some cmd
  | .planCall false _ => st
  | .clearCall => none

/-- Run a planner object from construction through a sequence of events. -/
def runPlanner (events : List PlannerEvent) : Option (ℚ × ℚ) :=
  events.foldl stepPlanner none

/-- Modelled from the spec: `PlannerInterface::getVelocityCommand`
(planner_interface.h, lines 149–157) — returns `true` together with the
stored (v, omega) when a command is available, `false` otherwise. -/
def getVelocityCommand (st : Option (ℚ × ℚ)) : Bool × ℚ × ℚ :=
  match st with
  | some vw => (true, vw)
  | none => (false, 0, 0)

/-! ## Inner solve determinism -/

/-- A candidate's optimization graph as the inner solver sees it:
vertex values plus weighted difference edges between vertex indices. -/
structure SolverGraph where
  vertices : List ℚ
  edges : List (ℕ × ℕ × ℚ)
deriving DecidableEq, Repr

/-- The weighted residual of one edge over the current vertex values. -/
def edgeResidual (vs : List ℚ) (e : ℕ × ℕ × ℚ) : ℚ :=
  e.2.2 * (vs.getD e.2.1 0 - vs.getD e.1 0)

/-- Modelled from the spec: one deterministic Gauss-Newton-like inner
iteration — every vertex moves against the accumulated residual of its
outgoing edges (spec §4.3; the solver implementation is not part of this
source tree). -/
def innerIteration (g : SolverGraph) : SolverGraph :=
  { vertices :=
      g.vertices.mapIdx fun i v =>
        v - (g.edges.foldl
          (fun acc e => if e.1 = i then acc + edgeResidual g.vertices e else acc)
          0) / 2
    edges := g.edges }

/-- Modelled from the spec: the inner solve — a fixed number of inner
iterations over a fixed graph (spec §4.3). -/
def innerSolve (no_inner_iterations : ℕ) (g : SolverGraph) : SolverGraph :=
  match no_inner_iterations with
  | 0 => g
  | n + 1 => innerSolve n (innerIteration g)

/-- Modelled from the spec: per-candidate optimization as dispatched by
the planning cycle; it receives the cycle's pseudo-random stream for
uniform plumbing, but the solve itself never reads it. -/
def optimizeCandidate (rng : ℕ) (no_inner_iterations : ℕ)
    (g : SolverGraph) : SolverGraph :=
  innerSolve no_inner_iterations g

/-- Modelled from the spec: the pseudo-random stream used by the
homotopy-class explorer's roadmap sampling (a linear congruential step). -/
def rngNext (s : ℕ) : ℕ :=
  (1103515245 * s + 12345) % 2147483648

/-- Modelled from the spec: the explorer's randomized keypoint sampling —
`n` waypoint abscissae drawn from the pseudo-random stream (spec §4.5
step 2(b); randomized sampling is isolated to candidate generation). -/
def sampleKeypoints (rng : ℕ) : ℕ → List ℚ
  | 0 => []
  | n + 1 => ((rngNext rng % 100 : ℕ) : ℚ) / 10 :: sampleKeypoints (rngNext rng) n

/-! ## Timed elastic band and `autosize` -/

/-- A timed elastic band: a start pose followed by (TimeDiff, pose) pairs,
i.e. the alternating pose / time-gap sequence of spec §3 (*Trajectory*). -/
structure TimedTraj where
  start : PoseSE2
  rest : List (ℚ × PoseSE2)
deriving DecidableEq, Repr

/-- The number of pose samples of the band. -/
def sampleCount (t : TimedTraj) : ℤ :=
  t.rest.length + 1

/-- The list of TimeDiff values of the band. -/
def timeDiffs (t : TimedTraj) : List ℚ :=
  t.rest.map Prod.fst

/-- Linear interpolation used when `autosize` splits a time gap by
inserting a new pose halfway between two consecutive poses. -/
def interpolatePose (a b : PoseSE2) : PoseSE2 :=
  ⟨(a.x + b.x) / 2, (a.y + b.y) / 2, (a.theta + b.theta) / 2⟩

/-- Modelled from the spec: one left-to-right pass of `autosize` over the
gaps of the band (spec §4.1): a gap above `dt_ref*(1+dt_hysteresis)` is
split in two by a linearly interpolated pose; a gap below
`dt_ref*(1-dt_hysteresis)` is merged with the following gap, removing a
pose, but only while the sample count is above `min_samples`. `n` is the
sample count of the whole band at the moment the pair is examined and
`prev` the pose preceding the first remaining gap; the implementation of
the band is not part of this source tree. -/
def autosizeGo (dt_ref dt_hysteresis : ℚ) (min_samples : ℤ) :
    ℤ → PoseSE2 → List (ℚ × PoseSE2) → List (ℚ × PoseSE2)
  | _, prev, [] => []
  | n, prev, [(dt, p)] =>
    if dt_ref * (1 + dt_hysteresis) < dt then
      [(dt / 2, interpolatePose prev p), (dt / 2, p)]
    else
      [(dt, p)]
  | n, prev, (dt, p) :: (dt2, p2) :: rest =>
    if dt_ref * (1 + dt_hysteresis) < dt then
      (dt / 2, interpolatePose prev p) :: (dt / 2, p) ::
        autosizeGo dt_ref dt_hysteresis min_samples (n + 1) p ((dt2, p2) :: rest)
    else if dt < dt_ref * (1 - dt_hysteresis) ∧ min_samples < n then
      (dt + dt2, p2) :: autosizeGo dt_ref dt_hysteresis min_samples (n - 1) p2 rest
    else
      (dt, p) :: autosizeGo dt_ref dt_hysteresis min_samples n p ((dt2, p2) :: rest)

/-- Modelled from the spec: one `autosize` invocation on a band. -/
def autosize (dt_ref dt_hysteresis : ℚ) (min_samples : ℤ) (t : TimedTraj) :
    TimedTraj :=
  ⟨t.start, autosizeGo dt_ref dt_hysteresis min_samples (sampleCount t) t.start t.rest⟩

/-- A sequence of `k` `autosize` invocations. -/
def iterAutosize (dt_ref dt_hysteresis : ℚ) (min_samples : ℤ) :
    ℕ → TimedTraj → TimedTraj
  | 0, t => t
  | k + 1, t =>
    iterAutosize dt_ref dt_hysteresis min_samples k
      (autosize dt_ref dt_hysteresis min_samples t)

/-- A `plan` call succeeded iff its event records success. -/
def isSuccessfulPlan : PlannerEvent → Bool
  | .planCall true _ => true
  | _ => false

/-- Concrete band used to witness the autosize invariants: three poses at
the default temporal resolution. -/
def witnessTraj : TimedTraj :=
  ⟨⟨0, 0, 0⟩, [((3 : ℚ)/10, ⟨1, 0, 0⟩), ((3 : ℚ)/10, ⟨2, 0, 0⟩)]⟩

/-! ## Lemmas about one `autosize` pass -/

lemma autosizeGo_length (dt_ref dt_hysteresis : ℚ) (min_samples : ℤ)
    (n : ℤ) (prev : PoseSE2) (gaps : List (ℚ × PoseSE2)) :
    min_samples ≤ n →
      min_samples ≤ n +
        ((autosizeGo dt_ref dt_hysteresis min_samples n prev gaps).length : ℤ) -
        (gaps.length : ℤ) := by
  induction n, prev, gaps using autosizeGo.induct dt_ref dt_hysteresis min_samples with
  | case1 x prev => intro hn; simp [autosizeGo]; omega
  | case2 n prev dt p h => intro hn; simp [autosizeGo, h]; omega
  | case3 n prev dt p h => intro hn; simp [autosizeGo, h]; omega
  | case4 n prev dt p dt2 p2 rest h ih =>
    intro hn
    have := ih (by omega)
    simp only [autosizeGo, if_pos h, List.length_cons] at this ⊢
    push_cast at this ⊢
    omega
  | case5 n prev dt p dt2 p2 rest h1 h2 ih =>
    intro hn
    have := ih (by omega)
    simp only [autosizeGo, if_neg h1, if_pos h2, List.length_cons] at this ⊢
    push_cast at this ⊢
    omega
  | case6 n prev dt p dt2 p2 rest h1 h2 ih =>
    intro hn
    have := ih hn
    simp only [autosizeGo, if_neg h1, if_neg h2, List.length_cons] at this ⊢
    push_cast at this ⊢
    omega

lemma autosizeGo_pos (dt_ref dt_hysteresis : ℚ) (min_samples : ℤ)
    (n : ℤ) (prev : PoseSE2) (gaps : List (ℚ × PoseSE2)) :
    (∀ x ∈ gaps, 0 < x.1) →
      ∀ x ∈ autosizeGo dt_ref dt_hysteresis min_samples n prev gaps, 0 < x.1 := by
  induction n, prev, gaps using autosizeGo.induct dt_ref dt_hysteresis min_samples with
  | case1 x prev => intro hp x hx; simp [autosizeGo] at hx
  | case2 n prev dt p h =>
    intro hp x hx
    have hdt : 0 < dt := hp (dt, p) (by simp)
    simp only [autosizeGo, if_pos h, List.mem_cons, List.not_mem_nil, or_false] at hx
    rcases hx with rfl | rfl
    · show 0 < dt / 2; linarith
    · show 0 < dt / 2; linarith
  | case3 n prev dt p h =>
    intro hp x hx
    simp only [autosizeGo, if_neg h, List.mem_cons, List.not_mem_nil, or_false] at hx
    subst hx
    exact hp (dt, p) (by simp)
  | case4 n prev dt p dt2 p2 rest h ih =>
    intro hp x hx
    have hdt : 0 < dt := hp (dt, p) (by simp)
    have hrest : ∀ y ∈ (dt2, p2) :: rest, 0 < y.1 :=
      fun y hy => hp y (List.mem_cons_of_mem _ hy)
    simp only [autosizeGo, if_pos h, List.mem_cons] at hx
    rcases hx with rfl | rfl | hx
    · show 0 < dt / 2; linarith
    · show 0 < dt / 2; linarith
    · exact ih hrest x hx
  | case5 n prev dt p dt2 p2 rest h1 h2 ih =>
    intro hp x hx
    have hdt : 0 < dt := hp (dt, p) (by simp)
    have hdt2 : 0 < dt2 := hp (dt2, p2) (by simp)
    have hrest : ∀ y ∈ rest, 0 < y.1 :=
      fun y hy => hp y (List.mem_cons_of_mem _ (List.mem_cons_of_mem _ hy))
    simp only [autosizeGo, if_neg h1, if_pos h2, List.mem_cons] at hx
    rcases hx with rfl | hx
    · show 0 < dt + dt2; linarith
    · exact ih hrest x hx
  | case6 n prev dt p dt2 p2 rest h1 h2 ih =>
    intro hp x hx
    have hrest : ∀ y ∈ (dt2, p2) :: rest, 0 < y.1 :=
      fun y hy => hp y (List.mem_cons_of_mem _ hy)
    simp only [autosizeGo, if_neg h1, if_neg h2, List.mem_cons] at hx
    rcases hx with rfl | hx
    · exact hp (dt, p) (by simp)
    · exact ih hrest x hx

lemma autosize_count (dt_ref dt_hysteresis : ℚ) (min_samples : ℤ) (t : TimedTraj)
    (hcount : min_samples ≤ sampleCount t) :
    min_samples ≤ sampleCount (autosize dt_ref dt_hysteresis min_samples t) := by
  have := autosizeGo_length dt_ref dt_hysteresis min_samples (sampleCount t)
    t.start t.rest hcount
  simp only [sampleCount, autosize] at this ⊢
  omega

lemma autosize_pos (dt_ref dt_hysteresis : ℚ) (min_samples : ℤ) (t : TimedTraj)
    (hpos : ∀ d ∈ timeDiffs t, 0 < d) :
    ∀ d ∈ timeDiffs (autosize dt_ref dt_hysteresis min_samples t), 0 < d := by
  intro d hd
  simp only [timeDiffs, autosize, List.mem_map] at hd
  obtain ⟨x, hx, rfl⟩ := hd
  refine autosizeGo_pos dt_ref dt_hysteresis min_samples (sampleCount t)
    t.start t.rest ?_ x hx
  intro y hy
  exact hpos y.1 (by simp only [timeDiffs, List.mem_map]; exact ⟨y, hy, rfl⟩)

lemma runPlanner_none (events : List PlannerEvent)
    (hnone : ∀ e ∈ events, isSuccessfulPlan e = false) :
    runPlanner events = none := by
  have key : ∀ (es : List PlannerEvent), (∀ e ∈ es, isSuccessfulPlan e = false) →
      es.foldl stepPlanner none = none := by
    intro es
    induction es with
    | nil => intro h; rfl
    | cons e es ih =>
      intro h
      have he := h e (by simp)
      have hes : ∀ x ∈ es, isSuccessfulPlan x = false :=
        fun x hx => h x (List.mem_cons_of_mem _ hx)
      have hstep : stepPlanner none e = none := by
        cases e with
        | planCall success cmd =>
          cases success with
          | true => simp [isSuccessfulPlan] at he
          | false => rfl
        | clearCall => rfl
      simpa [List.foldl_cons, hstep] using ih hes
  exact key events hnone

/-! ## Claim theorems -/

/-- C1 counterexample: the claim requires the hysteresis factor to be
strictly less than 1 "including its default value set by the TebConfig
constructor", but the constructor sets `hcp.selection_cost_hysteresis`
to 1.0, which is not strictly less than 1. -/
theorem selection_cost_hysteresis_default_not_lt_one :
    ¬ defaultTebConfig.hcp.selection_cost_hysteresis < 1 := by
  simp [defaultTebConfig]

/-- C1 (amended): homotopy-class selection switches to a new candidate iff
its cost is strictly below `previousCost * hysteresis`; with previous
cost 10.0 and hysteresis 0.9 a candidate of cost 9.5 does not cause a
switch and a candidate of cost 8.0 does. The default
`selection_cost_hysteresis` set by the TebConfig constructor is 1.0,
which is not strictly less than 1. -/
theorem selection_hysteresis_rule :
    (∀ previousCost hysteresis newCost : ℚ,
        switchCandidate previousCost hysteresis newCost = true ↔
          newCost < previousCost * hysteresis) ∧
    switchCandidate 10 (9/10) (19/2) = false ∧
    switchCandidate 10 (9/10) 8 = true ∧
    defaultTebConfig.hcp.selection_cost_hysteresis = 1 := by
  refine ⟨fun a b c => ?_, ?_, ?_, rfl⟩
  · simp [switchCandidate]
  · simp [switchCandidate]; norm_num
  · simp [switchCandidate]; norm_num

/-- C2: starting from a valid band (sample count at least the configured
minimum, which is greater than 2, and all TimeDiffs strictly positive),
any sequence of `autosize` invocations keeps the sample count at or above
`min_samples` and keeps every TimeDiff strictly positive. -/
theorem autosize_min_samples_and_positive_timediffs
    (dt_ref dt_hysteresis : ℚ) (min_samples : ℤ) (k : ℕ) (t : TimedTraj)
    (hmin : 2 < min_samples) (hcount : min_samples ≤ sampleCount t)
    (hpos : ∀ d ∈ timeDiffs t, 0 < d) :
    min_samples ≤ sampleCount (iterAutosize dt_ref dt_hysteresis min_samples k t) ∧
      ∀ d ∈ timeDiffs (iterAutosize dt_ref dt_hysteresis min_samples k t), 0 < d := by
  induction k generalizing t with
  | zero => exact ⟨hcount, hpos⟩
  | succ k ih =>
    exact ih (autosize dt_ref dt_hysteresis min_samples t)
      (autosize_count dt_ref dt_hysteresis min_samples t hcount)
      (autosize_pos dt_ref dt_hysteresis min_samples t hpos)

/-- C2 witness: two autosize invocations with the constructor's default
`dt_ref`, `dt_hysteresis` and `min_samples` on a concrete three-sample
band. -/
theorem autosize_min_samples_and_positive_timediffs_witness :
    defaultTebConfig.trajectory.min_samples ≤
        sampleCount (iterAutosize defaultTebConfig.trajectory.dt_ref
          defaultTebConfig.trajectory.dt_hysteresis
          defaultTebConfig.trajectory.min_samples 2 witnessTraj) ∧
      ∀ d ∈ timeDiffs (iterAutosize defaultTebConfig.trajectory.dt_ref
          defaultTebConfig.trajectory.dt_hysteresis
          defaultTebConfig.trajectory.min_samples 2 witnessTraj), 0 < d :=
  autosize_min_samples_and_positive_timediffs
    defaultTebConfig.trajectory.dt_ref defaultTebConfig.trajectory.dt_hysteresis
    defaultTebConfig.trajectory.min_samples 2 witnessTraj
    (by norm_num [defaultTebConfig])
    (by norm_num [defaultTebConfig, witnessTraj, sampleCount])
    (by norm_num [witnessTraj, timeDiffs])

/-- C3: `isTrajectoryFeasible` returns `true` exactly when the footprint
along the checked part of the trajectory intersects an obstacle; the
straight-line trajectory through the point obstacle (1,0) with footprint
radius 0.2 reports a collision (infeasible), and the same trajectory
offset laterally by 1.0 m does not (feasible). -/
theorem isTrajectoryFeasible_collision_semantics :
    (∀ (radius : ℚ) (obstacles : List (ℚ × ℚ)) (look_ahead_idx : ℤ)
        (poses : List PoseSE2),
        isTrajectoryFeasible radius obstacles look_ahead_idx poses = true ↔
          ∃ p ∈ checkedPoses look_ahead_idx poses, ∃ o ∈ obstacles,
            footprintHitsObstacle radius p o = true) ∧
    isTrajectoryFeasible (1/5) [(1, 0)] look_ahead_idx_default straightPoses = true ∧
    isTrajectoryFeasible (1/5) [(1, 0)] look_ahead_idx_default offsetPoses = false := by
  refine ⟨fun r obs k poses => ?_, ?_, ?_⟩
  · simp [isTrajectoryFeasible, List.any_eq_true]
  · norm_num [isTrajectoryFeasible, checkedPoses, look_ahead_idx_default, straightPoses,
      footprintHitsObstacle]
  · norm_num [isTrajectoryFeasible, checkedPoses, look_ahead_idx_default, offsetPoses,
      footprintHitsObstacle]

/-- C4: two candidates are in the same homotopy class iff the absolute
differences of real and imaginary parts of their H-signatures are both
below the threshold; of two same-class candidates only the lower-cost one
is retained; two candidates around the same obstacle on the same side,
differing only by floating-point noise, fall into one bucket under the
default threshold 0.1 and only the cheaper one is kept. -/
theorem h_signature_equivalence_and_dedup :
    (∀ (threshold : ℚ) (a b : HSignature),
        sameHClass threshold a b = true ↔
          |a.re - b.re| < threshold ∧ |a.im - b.im| < threshold) ∧
    (∀ (threshold : ℚ) (c d : Candidate),
        pruneCandidates threshold [c, d] =
          if sameHClass threshold d.sig c.sig then
            [if d.cost < c.cost then d else c]
          else [c, d]) ∧
    defaultTebConfig.hcp.h_signature_threshold = 1/10 ∧
    sameHClass defaultTebConfig.hcp.h_signature_threshold
      ⟨7/10, 3/10⟩ ⟨69999/100000, 29999/100000⟩ = true ∧
    pruneCandidates defaultTebConfig.hcp.h_signature_threshold
      [⟨⟨7/10, 3/10⟩, 5⟩, ⟨⟨69999/100000, 29999/100000⟩, 4⟩] =
      [⟨⟨69999/100000, 29999/100000⟩, 4⟩] := by
  have hsame : sameHClass defaultTebConfig.hcp.h_signature_threshold
      ⟨69999/100000, 29999/100000⟩ ⟨7/10, 3/10⟩ = true := by
    simp [sameHClass, abs_sub_lt_iff, defaultTebConfig]
    norm_num
  have hsame2 : sameHClass defaultTebConfig.hcp.h_signature_threshold
      ⟨7/10, 3/10⟩ ⟨69999/100000, 29999/100000⟩ = true := by
    simp [sameHClass, abs_sub_lt_iff, defaultTebConfig]
    norm_num
  have h45 : (4 : ℚ) < 5 := by norm_num
  refine ⟨fun th a b => ?_, fun th c d => ?_, rfl, hsame2, ?_⟩
  · simp [sameHClass]
  · simp [pruneCandidates, insertCandidate]
  · simp [pruneCandidates, insertCandidate, hsame, h45]

/-- C5: `getVelocityCommand` reports a valid command only after a
successful `plan` call — over any event history containing no successful
`plan`, it returns `false` (failure) rather than a command. -/
theorem getVelocityCommand_requires_successful_plan
    (events : List PlannerEvent)
    (hnone : ∀ e ∈ events, isSuccessfulPlan e = false) :
    (getVelocityCommand (runPlanner events)).1 = false := by
  rw [runPlanner_none events hnone]
  rfl

/-- C5 witness: a failed `plan` call followed by `clearPlanner` yields no
valid velocity command. -/
theorem getVelocityCommand_requires_successful_plan_witness :
    (getVelocityCommand (runPlanner
      [PlannerEvent.planCall false (1, 0), PlannerEvent.clearCall])).1 = false :=
  getVelocityCommand_requires_successful_plan
    [PlannerEvent.planCall false (1, 0), PlannerEvent.clearCall] (by decide)

/-- C6: the default (base-class) implementation of
`isHorizonReductionAppropriate` returns `false` for every initial plan. -/
theorem isHorizonReductionAppropriate_default_false
    (initial_plan : List PoseStamped) :
    isHorizonReductionAppropriate initial_plan = false :=
  rfl

/-- C7: with the default argument value `-1`, `isTrajectoryFeasible`
checks the complete trajectory; with a non-negative count `k` it checks
exactly the first `k` poses, so the verdict is unchanged by anything
appended beyond them. -/
theorem isTrajectoryFeasible_look_ahead (radius : ℚ) (obstacles : List (ℚ × ℚ))
    (poses extra : List PoseSE2) (k : ℤ) (hk : 0 ≤ k)
    (hlen : k.toNat ≤ poses.length) :
    checkedPoses look_ahead_idx_default poses = poses ∧
    (checkedPoses k poses).length = k.toNat ∧
    isTrajectoryFeasible radius obstacles k (poses ++ extra) =
      isTrajectoryFeasible radius obstacles k poses := by
  have hneg : ¬ k < 0 := by omega
  refine ⟨?_, ?_, ?_⟩
  · simp [checkedPoses, look_ahead_idx_default]
  · simp [checkedPoses, hneg, List.length_take]
    omega
  · simp only [isTrajectoryFeasible, checkedPoses, if_neg hneg]
    rw [List.take_append_of_le_length hlen]

/-- C7 witness: look-ahead 2 over the three-pose straight trajectory,
with extra poses appended. -/
theorem isTrajectoryFeasible_look_ahead_witness :
    checkedPoses look_ahead_idx_default straightPoses = straightPoses ∧
    (checkedPoses 2 straightPoses).length = (2 : ℤ).toNat ∧
    isTrajectoryFeasible (1/5) [(1, 0)] 2 (straightPoses ++ offsetPoses) =
      isTrajectoryFeasible (1/5) [(1, 0)] 2 straightPoses :=
  isTrajectoryFeasible_look_ahead (1/5) [(1, 0)] straightPoses offsetPoses 2
    (by decide) (by decide)

/-- C8: the inner solve is a deterministic function of the graph alone —
its result is independent of the pseudo-random stream, which influences
only the explorer's keypoint sampling (shown to genuinely depend on the
stream). -/
theorem inner_solve_deterministic :
    (∀ (rngA rngB no_inner_iterations : ℕ) (g : SolverGraph),
        optimizeCandidate rngA no_inner_iterations g =
          optimizeCandidate rngB no_inner_iterations g) ∧
    sampleKeypoints 1 3 ≠ sampleKeypoints 2 3 := by
  refine ⟨fun rngA rngB iters g => rfl, fun heq => ?_⟩
  have h1 : rngNext 1 % 100 = 90 := by norm_num [rngNext]
  have h2 : rngNext 2 % 100 = 87 := by norm_num [rngNext]
  simp only [sampleKeypoints, h1, h2, List.cons.injEq] at heq
  have hhead := heq.1
  norm_num at hhead

/-- C9: the default (base-class) implementations of `computeCurrentCost`
and `getFullTrajectory` have empty bodies — the planner state, the
caller's cost vector and the trajectory output vector are all returned
unchanged, for all argument values. -/
theorem computeCurrentCost_getFullTrajectory_default_noop (σ : Type)
    (state : σ) (cost : List ℚ) (obst_cost_scale : ℚ)
    (alternative_time_cost : Bool) (trajectory : List TrajectoryPointMsg) :
    computeCurrentCost σ state cost obst_cost_scale alternative_time_cost =
        (state, cost) ∧
      getFullTrajectory σ state trajectory = (state, trajectory) :=
  ⟨rfl, rfl⟩

/-- C10: a default-constructed TebConfig enables human-aware planning
(`planning_mode = 1`, so the human-interaction cost edges are active) as
well as homotopy-class planning and multithreading. -/
theorem default_config_enables_human_aware_planning :
    defaultTebConfig.planning_mode = 1 ∧
      humanInteractionEdgesActive defaultTebConfig = true ∧
      defaultTebConfig.hcp.enable_homotopy_class_planning = true ∧
      defaultTebConfig.hcp.enable_multithreading = true :=
  ⟨rfl, rfl, rfl, rfl⟩

end TebSpec
